import Mathlib

/-!
# Verification of `validation/validate_data_points.py`

A shallow embedding of the SWE-bench data-point validator. The script loads
benchmark entries (JSON files), invokes an external evaluation harness once per
entry, reads the report the harness writes, and classifies the outcome under a
golden / fail-case policy. We model the pure decision logic directly and the
effectful parts (filesystem, harness) by explicit state and oracle functions.
-/

namespace ValidateDataPoints

/-- Python `str.replace(old, new)` on character lists: scan left to right and
replace every non-overlapping occurrence of `pat` by `rep`. Fuel-recursive so
the kernel can evaluate it; each step consumes at least one character, so
`s.length` fuel always suffices. -/
def pyReplaceFuel (pat rep : List Char) : Nat → List Char → List Char
  | _, [] => []
  | 0, s => s
  | fuel + 1, c :: rest =>
    if pat ≠ [] ∧ pat.isPrefixOf (c :: rest) then
      rep ++ pyReplaceFuel pat rep fuel ((c :: rest).drop pat.length)
    else
      c :: pyReplaceFuel pat rep fuel rest

/-- Python `s.replace(old, new)` on strings. -/
def pyReplace (s pat rep : String) : String :=
  ⟨pyReplaceFuel pat.data rep.data s.data.length s.data⟩

/-- Python `s.endswith(post)`. -/
def pyEndsWith (s post : String) : Bool :=
  post.data.isSuffixOf s.data

/-- Python dict lookup on an association list: `d[k]` when `k in d`. -/
def dictLookup (k : String) (d : List (String × α)) : Option α :=
  (d.find? (fun p => p.1 = k)).map (·.2)

/-- Python `d.get(k, dflt)`. -/
def dictGetD (k : String) (d : List (String × α)) (dflt : α) : α :=
  (dictLookup k d).getD dflt

/-- Per-category result dict in the report, e.g. `{"success": [...], "failure": [...]}`.
Only lists of test identifiers are consumed. -/
abbrev CategoryStatus := List (String × List String)

/-- The `tests_status` mapping: category name to its result dict. -/
abbrev TestsStatus := List (String × CategoryStatus)

/-- The per-instance report object; only the `"tests_status"` key is consumed. -/
abbrev InstanceReport := List (String × TestsStatus)

/-- The report file content: keyed by instance id. -/
abbrev Report := List (String × InstanceReport)

/-- Lines 118–123: iterate the categories of `tests_status`, and for each
category whose dict has a `"success"` key, add that category's success list to
the accumulated set (`tests_passed_after.update(results["success"])`). -/
def collectSuccess (ts : TestsStatus) : Finset String :=
  ts.foldl
    (fun acc p =>
      match dictLookup "success" p.2 with
      | some tests => acc ∪ tests.toFinset
      | none => acc)
    ∅

/-- Lines 113–123: `report_after.get(base_instance_id, {})`, then
`.get("tests_status", {})`, then collect all successful tests. -/
def observedSuccess (report : Report) (targetId : String) : Finset String :=
  collectSuccess (dictGetD "tests_status" (dictGetD targetId report []) [])

/-- The diagnostic printed alongside a classifier rejection (lines 128–157):
which declared tests were missing from the observed-success set, or, for a
fail case, that every FAIL_TO_PASS test unexpectedly passed. -/
inductive Diagnostic where
  | missingFailToPass (missing : Finset String)
  | missingPassToPass (missing : Finset String)
  | allFailToPassPassed (declared : Finset String)
  deriving DecidableEq

/-- Result of the outcome classifier. -/
inductive ClassifyResult where
  | accept
  | reject (d : Diagnostic)
  deriving DecidableEq

/-- Lines 125–160 of `validate_data_point`: the outcome classifier. Given the
fail-case flag, the declared FAIL_TO_PASS and PASS_TO_PASS sets and the
observed-success set, decide accept/reject exactly as the two `if` chains do
(Python's empty-set truthiness becomes an `= ∅` test). -/
def classify (is_fail_case : Bool) (fail_to_pass pass_to_pass tests_passed_after : Finset String) :
    ClassifyResult :=
  if is_fail_case then
    -- failed_fail_to_pass = fail_to_pass - tests_passed_after
    let failed_fail_to_pass := fail_to_pass \ tests_passed_after
    if failed_fail_to_pass = ∅ then
      .reject (.allFailToPassPassed fail_to_pass)
    else
      let missing_pass_to_pass := pass_to_pass \ tests_passed_after
      if missing_pass_to_pass ≠ ∅ then
        .reject (.missingPassToPass missing_pass_to_pass)
      else
        .accept
  else
    let missing_fail_to_pass := fail_to_pass \ tests_passed_after
    if missing_fail_to_pass ≠ ∅ then
      .reject (.missingFailToPass missing_fail_to_pass)
    else
      let missing_pass_to_pass := pass_to_pass \ tests_passed_after
      if missing_pass_to_pass ≠ ∅ then
        .reject (.missingPassToPass missing_pass_to_pass)
      else
        .accept

/-- Lines 56–60: the target identifier handed to the harness. For fail cases
`data_point["instance_id"].replace("-fail", "")` removes every occurrence of
the substring `"-fail"`; otherwise the identifier is unchanged. -/
def resolveTargetId (is_fail_case : Bool) (instance_id : String) : String :=
  if is_fail_case then pyReplace instance_id "-fail" "" else instance_id

/-- Modelled from the spec: "for an entry file named `X-fail.json` with
declared identifier `foo-fail`, the harness must be invoked with target
identifier `foo` (suffix stripped)" — i.e. only a trailing `-fail` suffix is
removed, and identifiers without that suffix are unchanged. -/
def stripTrailingFailSuffix (s : String) : String :=
  if pyEndsWith s "-fail" then ⟨s.data.take (s.data.length - 5)⟩ else s

/-- The parsed entry record. `presentFields` models the key set of the JSON
object (what the required-field loop checks with `field not in data_point`);
the fields the script consumes are also given as typed values.
`FAIL_TO_PASS`/`PASS_TO_PASS` hold the outcome of `json.loads` on the
corresponding field: `none` models a value that fails to parse. -/
structure DataPoint where
  instance_id : String
  patch : String
  FAIL_TO_PASS : Option (List String)
  PASS_TO_PASS : Option (List String)
  presentFields : List String
  deriving DecidableEq

/-- Outcome of opening and `json.load`-ing the entry file (lines 19–27). -/
inductive EntryRead where
  | fileMissing
  | invalidJson
  | parsed (dp : DataPoint)

/-- The report artifact the harness leaves at
`logs/run_evaluation/<run_id>/golden/<base_instance_id>/report.json`:
absent, present but not valid JSON, or parsed content. -/
inductive ReportArtifact where
  | absent
  | unparsable
  | parsed (r : Report)

/-- What `run_evaluation_main` does on one invocation: raise a `ValueError`
(caught, line 98), raise anything else (uncaught), or return, leaving some
report-artifact state behind. -/
inductive HarnessResult where
  | raisesValueError
  | raisesOther
  | completes (artifact : ReportArtifact)

/-- Exceptions that escape `validate_data_point` (nothing catches them there,
and `main`'s loop has no handler either). -/
inductive Exn where
  | harnessError
  | jsonDecodeError (source : String)
  deriving DecidableEq

/-- The printed reason accompanying each `return False` of
`validate_data_point`. -/
inductive RejectReason where
  | invalidEntryJson
  | entryFileMissing
  | missingField (field : String)
  | harnessValueError
  | reportMissing
  | classifier (d : Diagnostic)
  deriving DecidableEq

/-- Per-entry validation outcome: the boolean the function returns, with the
diagnostic that accompanies `False`. -/
inductive VOutcome where
  | accept
  | reject (r : RejectReason)
  deriving DecidableEq

/-- Control flow out of the `try/except ValueError/finally` block. -/
inductive BlockControl where
  | proceed (artifact : ReportArtifact)
  | returnFalse
  | raiseHarness

/-- State and control after the harness-invocation block: whether the
prediction-record file still exists, and how the block was left. -/
structure HarnessBlockOut where
  predFileExists : Bool
  control : BlockControl

/-- `os.remove(predictions_path_after)` in the `finally` clause (line 102). -/
def osRemovePredFile (_ : Bool) : Bool := false

/-- Lines 69–102: `tempfile.NamedTemporaryFile` writes the single-prediction
record (the artifact now exists), then `run_evaluation_main` is invoked inside
`try/except ValueError/finally`. The `finally` clause removes the record on
every path out of the block — normal return, the caught `ValueError` (which
then returns `False`), and a propagating exception alike. -/
def runHarnessBlock (h : HarnessResult) : HarnessBlockOut :=
  let predFileWritten := true
  match h with
  | .completes artifact =>
    { predFileExists := osRemovePredFile predFileWritten, control := .proceed artifact }
  | .raisesValueError =>
    { predFileExists := osRemovePredFile predFileWritten, control := .returnFalse }
  | .raisesOther =>
    { predFileExists := osRemovePredFile predFileWritten, control := .raiseHarness }

/-- Line 63: `run_id_after = f"validation_{data_point['instance_id']}_after"`. -/
def runIdAfter (instance_id : String) : String :=
  "validation_" ++ instance_id ++ "_after"

/-- Everything one `validate_data_point` call reads from the world: the entry
file's name and parse outcome, the set of run-directory names existing under
`logs/` when the call starts, and the external harness as an oracle from the
target identifier it is invoked on and the directory state at invocation time
to its result. -/
structure EntryCase where
  fileName : String
  entryRead : EntryRead
  initialDirs : Finset String
  harness : String → Finset String → HarnessResult

/-- `validate_data_point` (the whole function) over the entry-case oracle and
the required-field list from `config.json`. `.ok` models a `return`;
`.error` models an exception escaping the function. -/
def validate_data_point (config : List String) (e : EntryCase) : Except Exn VOutcome :=
  match e.entryRead with
  | .invalidJson => .ok (.reject .invalidEntryJson)        -- lines 22–23
  | .fileMissing => .ok (.reject .entryFileMissing)        -- lines 25–27
  | .parsed dp =>
    -- line 31: fail case determined by the file name, not the instance_id
    let is_fail_case := pyEndsWith e.fileName "-fail.json"
    -- lines 37–40: first required field absent from the record, if any
    match config.find? (fun field => !dp.presentFields.contains field) with
    | some field => .ok (.reject (.missingField field))
    | none =>
      let base_instance_id := resolveTargetId is_fail_case dp.instance_id
      let run_id_after := runIdAfter dp.instance_id
      -- lines 64–67: shutil.rmtree of logs/<run_id_after> when it exists
      let dirs := e.initialDirs.erase run_id_after
      -- lines 80–97: run_evaluation_main(..., instance_ids=[base_instance_id], ...)
      match (runHarnessBlock (e.harness base_instance_id dirs)).control with
      | .returnFalse => .ok (.reject .harnessValueError)   -- lines 98–100
      | .raiseHarness => .error .harnessError
      | .proceed artifact =>
        match artifact with
        | .absent => .ok (.reject .reportMissing)          -- lines 105–108
        | .unparsable => .error (.jsonDecodeError "report.json")   -- line 111
        | .parsed report_after =>
          let tests_passed_after := observedSuccess report_after base_instance_id
          match dp.FAIL_TO_PASS with                       -- line 125
          | none => .error (.jsonDecodeError "FAIL_TO_PASS")
          | some f2p =>
            match dp.PASS_TO_PASS with                     -- line 126
            | none => .error (.jsonDecodeError "PASS_TO_PASS")
            | some p2p =>
              match classify is_fail_case f2p.toFinset p2p.toFinset tests_passed_after with
              | .accept => .ok .accept
              | .reject d => .ok (.reject (.classifier d))

instance [DecidableEq ε] [DecidableEq α] : DecidableEq (Except ε α) := fun a b =>
  match a, b with
  | .ok x, .ok y =>
    if h : x = y then isTrue (h ▸ rfl) else isFalse (fun he => h (Except.ok.inj he))
  | .error x, .error y =>
    if h : x = y then isTrue (h ▸ rfl) else isFalse (fun he => h (Except.error.inj he))
  | .ok _, .error _ => isFalse Except.noConfusion
  | .error _, .ok _ => isFalse Except.noConfusion

/-- The batch loop of `main` (lines 188–191): run `validate_data_point` on
each file in order. Each returned outcome is recorded and the loop continues;
nothing in `main` catches exceptions, so an exception escaping one entry's
validation ends the loop there, with no outcome recorded for that entry or
any later one. Returns the recorded outcomes and the escaped exception. -/
def runBatch (config : List String) : List EntryCase → List VOutcome × Option Exn
  | [] => ([], none)
  | e :: rest =>
    match validate_data_point config e with
    | .error x => ([], some x)
    | .ok o =>
      let (os, x) := runBatch config rest
      (o :: os, x)

/-- The resolved input of `main` (lines 178–186): a file path yields that
single file, a directory yields its `*.json` entries, anything else is
invalid. -/
inductive PathResolution where
  | invalidPath
  | resolvedFiles (files : List EntryCase)

/-- How the process ends after argument parsing. -/
inductive MainOutcome where
  | fatalInvalidPath
  | fatalNoEntries
  | ran (outcomes : List VOutcome) (escaped : Option Exn)

/-- `main` after argument parsing (lines 177–197): an invalid path or an
empty resolved entry set exits before any entry is processed; otherwise the
batch loop runs over every file. -/
def mainRun (config : List String) : PathResolution → MainOutcome
  | .invalidPath => .fatalInvalidPath
  | .resolvedFiles files =>
    if files.isEmpty then .fatalNoEntries
    else
      let (os, x) := runBatch config files
      .ran os x

/-- A concrete entry that is accepted: empty declared sets, an empty parsed
report. -/
def entryAccepted : EntryCase :=
  ⟨"good.json", .parsed ⟨"good", "p", some [], some [], []⟩, ∅,
    fun _ _ => .completes (.parsed [])⟩

/-- A concrete entry whose declared `FAIL_TO_PASS` field is not valid JSON,
so `json.loads` raises while the entry is processed. -/
def entryBadDeclaredSet : EntryCase :=
  ⟨"bad.json", .parsed ⟨"bad", "p", none, some [], []⟩, ∅,
    fun _ _ => .completes (.parsed [])⟩

/-- A concrete entry whose report artifact exists at the expected path but is
not valid JSON. -/
def entryUnparsableReport : EntryCase :=
  ⟨"mal.json", .parsed ⟨"mal", "p", some [], some [], []⟩, ∅,
    fun _ _ => .completes .unparsable⟩

/-- A concrete entry whose harness run completes but leaves no report
artifact at the expected path. -/
def entryReportAbsent : EntryCase :=
  ⟨"abs.json", .parsed ⟨"abs", "p", some [], some [], []⟩, ∅,
    fun _ _ => .completes .absent⟩

/-- Refined filesystem state for one entry's run, distinguishing the two
paths the function touches: the names of the directories directly under
`logs/` (lines 64–67 remove `logs/<run_id_after>`), and the state of the
report path `logs/run_evaluation/<run_id_after>/golden/<base_instance_id>/report.json`
read at lines 105–111 — which lies under the top-level directory
`run_evaluation`, never under `logs/<run_id_after>` (the removed directory's
name starts with `validation_`, see `runIdAfter_ne_run_evaluation`), so the
cleanup cannot reach it. `EntryCase` leaves the report entirely to the
harness oracle; this structure also carries what is already on disk at the
report path when validation starts. -/
structure RunFs where
  topLevelLogDirs : Finset String
  reportOnDisk : ReportArtifact

/-- Lines 62–67: `shutil.rmtree(Path("logs") / run_id_after)` when that
directory exists. Only the subtree `logs/<run_id_after>` is removed; the
report path under `logs/run_evaluation/…` is untouched. -/
def cleanupRunDir (run_id_after : String) (fs : RunFs) : RunFs :=
  { fs with topLevelLogDirs := fs.topLevelLogDirs.erase run_id_after }

/-- Harness outcome in the refined model: on completion, `writes` is what the
run left at the expected report path — `none` when the run produced no report
file there, in which case the pre-existing file, if any, persists. -/
inductive HarnessRunResult where
  | raisesValueError
  | raisesOther
  | completes (writes : Option ReportArtifact)

/-- `validate_data_point` on a parsed entry over the refined filesystem
state: the same function as `validate_data_point` except that the report it
reads at line 105 is whatever is at the report path after the harness run —
what the run wrote there, or else what was already on disk, since the cleanup
of lines 62–67 never touches that path. -/
def validate_data_point_fs (config : List String) (fileName : String) (dp : DataPoint)
    (fs : RunFs) (harness : String → RunFs → HarnessRunResult) : Except Exn VOutcome :=
  let is_fail_case := pyEndsWith fileName "-fail.json"
  match config.find? (fun field => !dp.presentFields.contains field) with
  | some field => .ok (.reject (.missingField field))
  | none =>
    let base_instance_id := resolveTargetId is_fail_case dp.instance_id
    let run_id_after := runIdAfter dp.instance_id
    let fs1 := cleanupRunDir run_id_after fs
    match harness base_instance_id fs1 with
    | .raisesValueError => .ok (.reject .harnessValueError)
    | .raisesOther => .error .harnessError
    | .completes writes =>
      match writes.getD fs1.reportOnDisk with
      | .absent => .ok (.reject .reportMissing)
      | .unparsable => .error (.jsonDecodeError "report.json")
      | .parsed report_after =>
        let tests_passed_after := observedSuccess report_after base_instance_id
        match dp.FAIL_TO_PASS with
        | none => .error (.jsonDecodeError "FAIL_TO_PASS")
        | some f2p =>
          match dp.PASS_TO_PASS with
          | none => .error (.jsonDecodeError "PASS_TO_PASS")
          | some p2p =>
            match classify is_fail_case f2p.toFinset p2p.toFinset tests_passed_after with
            | .accept => .ok .accept
            | .reject d => .ok (.reject (.classifier d))

/-- C1: golden policy. For a non-fail-case entry the classifier accepts iff
`FAIL_TO_PASS ⊆ observed` and `PASS_TO_PASS ⊆ observed`. On rejection the
diagnostic carries exactly the missing tests of the subset that failed the
check: the missing `FAIL_TO_PASS` tests when some are missing, otherwise the
missing `PASS_TO_PASS` tests. -/
theorem golden_policy_accept_iff (f2p p2p obs : Finset String) :
    (classify false f2p p2p obs = .accept ↔ f2p ⊆ obs ∧ p2p ⊆ obs)
    ∧ (¬ f2p ⊆ obs →
        classify false f2p p2p obs = .reject (.missingFailToPass (f2p \ obs)))
    ∧ (f2p ⊆ obs → ¬ p2p ⊆ obs →
        classify false f2p p2p obs = .reject (.missingPassToPass (p2p \ obs))) := by
  by_cases h1 : f2p ⊆ obs <;> by_cases h2 : p2p ⊆ obs <;>
    simp [classify, Finset.sdiff_eq_empty_iff_subset, h1, h2]

/-- Witness for C1 at a concrete input: with `FAIL_TO_PASS = {a}` and nothing
observed, the golden classifier rejects naming the missing set `{a}`. -/
theorem golden_policy_accept_iff_witness :
    classify false {"a"} ∅ ∅ = .reject (.missingFailToPass {"a"}) := by
  have h := (golden_policy_accept_iff {"a"} ∅ ∅).2.1 (by decide)
  simpa using h

/-- C2: fail-case policy. For a fail-case entry the classifier accepts iff
some declared `FAIL_TO_PASS` test is absent from the observed-success set and
`PASS_TO_PASS ⊆ observed`. On rejection the diagnostic says either that every
`FAIL_TO_PASS` test unexpectedly passed, or which `PASS_TO_PASS` tests are
missing. -/
theorem fail_case_policy_accept_iff (f2p p2p obs : Finset String) :
    (classify true f2p p2p obs = .accept ↔ (∃ t ∈ f2p, t ∉ obs) ∧ p2p ⊆ obs)
    ∧ ((∀ t ∈ f2p, t ∈ obs) →
        classify true f2p p2p obs = .reject (.allFailToPassPassed f2p))
    ∧ ((∃ t ∈ f2p, t ∉ obs) → ¬ p2p ⊆ obs →
        classify true f2p p2p obs = .reject (.missingPassToPass (p2p \ obs))) := by
  have he : (∃ t ∈ f2p, t ∉ obs) ↔ ¬ f2p ⊆ obs := Finset.not_subset.symm
  have ha : (∀ t ∈ f2p, t ∈ obs) ↔ f2p ⊆ obs := Finset.subset_iff.symm
  by_cases h1 : f2p ⊆ obs <;> by_cases h2 : p2p ⊆ obs <;>
    simp [classify, Finset.sdiff_eq_empty_iff_subset, he, ha, h1, h2]

/-- Witness for C2 at a concrete input: with `FAIL_TO_PASS = {a}` and `a`
observed as passing, the fail-case classifier rejects reporting that all
`FAIL_TO_PASS` tests passed. -/
theorem fail_case_policy_accept_iff_witness :
    classify true {"a"} ∅ {"a"} = .reject (.allFailToPassPassed {"a"}) := by
  have h := (fail_case_policy_accept_iff {"a"} ∅ {"a"}).2.1 (by decide)
  simpa using h

/-- C10: a fail-case entry with an empty declared `FAIL_TO_PASS` set is always
rejected, whatever the observed-success set: `∅ - observed` is empty, so the
«all FAIL_TO_PASS tests passed» branch fires unconditionally. -/
theorem fail_case_empty_fail_to_pass_rejects (p2p obs : Finset String) :
    classify true ∅ p2p obs = .reject (.allFailToPassPassed ∅) := by
  simp [classify]

/-- Membership in the success-collecting fold, generalized over the
accumulator. -/
theorem mem_collectSuccess_foldl (ts : TestsStatus) (acc : Finset String) (x : String) :
    x ∈ ts.foldl
        (fun acc p =>
          match dictLookup "success" p.2 with
          | some tests => acc ∪ tests.toFinset
          | none => acc)
        acc ↔
      x ∈ acc ∨ ∃ p ∈ ts, ∃ tests, dictLookup "success" p.2 = some tests ∧ x ∈ tests := by
  induction ts generalizing acc with
  | nil => simp
  | cons hd tl ih =>
    rw [List.foldl_cons, ih]
    cases hlk : dictLookup "success" hd.2 with
    | none => simp [hlk]
    | some tests =>
      simp only [hlk, Finset.mem_union, List.mem_toFinset, List.mem_cons]
      constructor
      · rintro (⟨hx | hx⟩ | ⟨p, hp, ts', hts', hx⟩)
        · exact Or.inl hx
        · exact Or.inr ⟨hd, Or.inl rfl, tests, hlk, hx⟩
        · exact Or.inr ⟨p, Or.inr hp, ts', hts', hx⟩
      · rintro (hx | ⟨p, hp | hp, ts', hts', hx⟩)
        · exact Or.inl (Or.inl hx)
        · subst hp
          rw [hlk] at hts'
          cases hts'
          exact Or.inl (Or.inr hx)
        · exact Or.inr ⟨p, hp, ts', hts', hx⟩

/-- C6: the observed-success set consumed by the classifier is exactly the
union, over all status categories listed under the target identifier's
`tests_status`, of the lists found under each category's `"success"` key; a
category whose dict has no `"success"` key contributes the empty set. -/
theorem observedSuccess_eq_union_of_success_categories (report : Report) (targetId : String) :
    observedSuccess report targetId =
      (dictGetD "tests_status" (dictGetD targetId report []) []).toFinset.biUnion
        (fun cat => (dictLookup "success" cat.2).elim ∅ List.toFinset) := by
  ext x
  rw [observedSuccess, collectSuccess, mem_collectSuccess_foldl]
  simp only [Finset.not_mem_empty, false_or, Finset.mem_biUnion, List.mem_toFinset]
  constructor
  · rintro ⟨p, hp, tests, htests, hx⟩
    exact ⟨p, hp, by simp [htests, hx]⟩
  · rintro ⟨p, hp, hx⟩
    cases htests : dictLookup "success" p.2 with
    | none => simp [htests] at hx
    | some tests =>
      simp only [htests, Option.elim, List.mem_toFinset] at hx
      exact ⟨p, hp, tests, htests, hx⟩

/-- C7: the prediction-record artifact written before invoking the harness is
gone on every path out of the invocation block — when `run_evaluation_main`
returns (whatever report artifact it leaves), when it raises the caught
`ValueError`, and when it raises any other exception. -/
theorem predFile_removed_on_every_path (h : HarnessResult) :
    (runHarnessBlock h).predFileExists = false := by
  cases h <;> rfl

/-- The directory removed by lines 62–67 is `logs/validation_<id>_after`,
whose name starts with `v`; it is never `logs/run_evaluation`, the top-level
directory the report is read from at line 105. -/
theorem runIdAfter_ne_run_evaluation (id : String) :
    runIdAfter id ≠ "run_evaluation" := by
  intro h
  have hv : (runIdAfter id).data.head? = some 'v' := rfl
  rw [h] at hv
  exact absurd hv (by decide)

/-- C8: the pre-run cleanup removes `logs/validation_<id>_after` only; the
report at `logs/run_evaluation/validation_<id>_after/golden/<base>/report.json`
survives it. Concretely, for the entry with identifier `i` and empty declared
sets: from a stale state (the stale run directory present, a stale parsed
report on disk) the cleanup empties the top-level directory set yet leaves
the report, so when the new harness run completes without writing a report
the entry is classified from the stale report and accepted, while the same
validation from a fresh state rejects with the report-missing diagnostic —
the rerun does not start from a clean slate. -/
theorem stale_report_survives_cleanup :
    (cleanupRunDir (runIdAfter "i") ⟨{runIdAfter "i"}, .parsed []⟩).topLevelLogDirs = ∅
    ∧ (cleanupRunDir (runIdAfter "i") ⟨{runIdAfter "i"}, .parsed []⟩).reportOnDisk = .parsed []
    ∧ validate_data_point_fs [] "i.json" ⟨"i", "p", some [], some [], []⟩
        ⟨{runIdAfter "i"}, .parsed []⟩ (fun _ _ => .completes none) = .ok .accept
    ∧ validate_data_point_fs [] "i.json" ⟨"i", "p", some [], some [], []⟩
        ⟨∅, .absent⟩ (fun _ _ => .completes none) = .ok (.reject .reportMissing) :=
  ⟨by decide, rfl, by decide, by decide⟩

/-- C3: the fail-case target identifier is computed with
`instance_id.replace("-fail", "")`, which removes every occurrence of the
substring `"-fail"`, not only a trailing suffix. On the identifier
`"pkg-fail-x-fail"` the code hands the harness `"pkg-x"`, while stripping only
the trailing suffix — what the claim and the code's own comment,
«without -fail suffix», describe — gives `"pkg-fail-x"`. Non-fail-case
identifiers are passed through unchanged, as the claim states. -/
theorem resolveTargetId_strips_every_occurrence :
    resolveTargetId true "pkg-fail-x-fail" = "pkg-x"
    ∧ stripTrailingFailSuffix "pkg-fail-x-fail" = "pkg-fail-x"
    ∧ resolveTargetId true "pkg-fail-x-fail" ≠ stripTrailingFailSuffix "pkg-fail-x-fail"
    ∧ resolveTargetId false "pkg-fail-x-fail" = "pkg-fail-x-fail" :=
  ⟨by decide, by decide, by decide, rfl⟩

/-- When every required field is present, the required-field loop finds no
missing field. -/
theorem find_missing_field_eq_none (config : List String) (dp : DataPoint)
    (h : ∀ field ∈ config, field ∈ dp.presentFields) :
    config.find? (fun field => !dp.presentFields.contains field) = none := by
  rw [List.find?_eq_none]
  intro f hf
  simp [h f hf]

/-- A validation that returns lets the batch loop record its outcome and
continue with the remaining entries. -/
theorem runBatch_cons_of_ok (config : List String) (e : EntryCase)
    (rest : List EntryCase) (o : VOutcome)
    (ho : validate_data_point config e = .ok o) :
    runBatch config (e :: rest) =
      (o :: (runBatch config rest).1, (runBatch config rest).2) := by
  rcases hr : runBatch config rest with ⟨os, x⟩
  simp [runBatch, ho, hr]

/-- C9: when the harness run completes but the report artifact is absent at
the expected path, the entry is rejected with the report-missing diagnostic —
the function returns rather than proceeding with an empty observed-success
set — and the batch loop continues with the remaining entries. -/
theorem report_missing_rejects_and_batch_continues
    (config : List String) (fileName : String) (dp : DataPoint)
    (dirs : Finset String) (harness : String → Finset String → HarnessResult)
    (rest : List EntryCase)
    (hfields : ∀ field ∈ config, field ∈ dp.presentFields)
    (hharness : harness (resolveTargetId (pyEndsWith fileName "-fail.json") dp.instance_id)
        (dirs.erase (runIdAfter dp.instance_id)) = .completes .absent) :
    validate_data_point config ⟨fileName, .parsed dp, dirs, harness⟩ =
        .ok (.reject .reportMissing)
    ∧ runBatch config (⟨fileName, .parsed dp, dirs, harness⟩ :: rest) =
        (.reject .reportMissing :: (runBatch config rest).1, (runBatch config rest).2) := by
  have hv : validate_data_point config ⟨fileName, .parsed dp, dirs, harness⟩ =
      .ok (.reject .reportMissing) := by
    unfold validate_data_point
    dsimp only
    rw [find_missing_field_eq_none config dp hfields]
    dsimp only
    rw [hharness]
    rfl
  exact ⟨hv, runBatch_cons_of_ok config _ rest _ hv⟩

/-- Witness for C9 at a concrete input: an absent report artifact yields the
report-missing rejection and the batch records it and goes on. -/
theorem report_missing_rejects_witness :
    validate_data_point [] ⟨"abs.json", .parsed ⟨"abs", "p", some [], some [], []⟩, ∅,
        fun _ _ => .completes .absent⟩ = .ok (.reject .reportMissing)
    ∧ runBatch [] [⟨"abs.json", .parsed ⟨"abs", "p", some [], some [], []⟩, ∅,
        fun _ _ => .completes .absent⟩] =
        (.reject .reportMissing :: (runBatch [] []).1, (runBatch [] []).2) :=
  report_missing_rejects_and_batch_continues [] "abs.json"
    ⟨"abs", "p", some [], some [], []⟩ ∅ (fun _ _ => .completes .absent) []
    (by simp) rfl

/-- Counterexample to C5: for a concrete entry whose report artifact exists
but is unparsable, `validate_data_point` does not return a per-entry
rejection — the `json.load` of the report has no handler, so the parse error
escapes — and a batch holding this entry followed by an otherwise-accepted
entry ends with the escaped exception, recording no outcome and never
attempting the second entry. -/
theorem malformed_report_aborts_counterexample :
    validate_data_point [] entryUnparsableReport = .error (.jsonDecodeError "report.json")
    ∧ runBatch [] [entryUnparsableReport, entryAccepted] =
        ([], some (.jsonDecodeError "report.json"))
    ∧ runBatch [] [entryAccepted] = ([.accept], none) := by
  refine ⟨by decide, by decide, by decide⟩

/-- C5 as amended: an existing-but-unparsable report artifact makes
`validate_data_point` raise an uncaught `json.JSONDecodeError` instead of
rejecting the entry, and the exception aborts the batch at that entry. -/
theorem malformed_report_raises
    (config : List String) (fileName : String) (dp : DataPoint)
    (dirs : Finset String) (harness : String → Finset String → HarnessResult)
    (rest : List EntryCase)
    (hfields : ∀ field ∈ config, field ∈ dp.presentFields)
    (hharness : harness (resolveTargetId (pyEndsWith fileName "-fail.json") dp.instance_id)
        (dirs.erase (runIdAfter dp.instance_id)) = .completes .unparsable) :
    validate_data_point config ⟨fileName, .parsed dp, dirs, harness⟩ =
        .error (.jsonDecodeError "report.json")
    ∧ runBatch config (⟨fileName, .parsed dp, dirs, harness⟩ :: rest) =
        ([], some (.jsonDecodeError "report.json")) := by
  have hv : validate_data_point config ⟨fileName, .parsed dp, dirs, harness⟩ =
      .error (.jsonDecodeError "report.json") := by
    unfold validate_data_point
    dsimp only
    rw [find_missing_field_eq_none config dp hfields]
    dsimp only
    rw [hharness]
    rfl
  refine ⟨hv, ?_⟩
  simp [runBatch, hv]

/-- Witness for the amended C5 at a concrete input. -/
theorem malformed_report_raises_witness :
    validate_data_point [] ⟨"mal.json", .parsed ⟨"mal", "p", some [], some [], []⟩, ∅,
        fun _ _ => .completes .unparsable⟩ = .error (.jsonDecodeError "report.json")
    ∧ runBatch [] [⟨"mal.json", .parsed ⟨"mal", "p", some [], some [], []⟩, ∅,
        fun _ _ => .completes .unparsable⟩] =
        ([], some (.jsonDecodeError "report.json")) :=
  malformed_report_raises [] "mal.json" ⟨"mal", "p", some [], some [], []⟩ ∅
    (fun _ _ => .completes .unparsable) [] (by simp) rfl

/-- Counterexample to C4: an exception while processing one entry does abort
the remaining entries. With a first entry whose declared `FAIL_TO_PASS` field
is unparsable (`json.loads` raises, uncaught), the two-entry batch stops with
the escaped exception and records no outcome, while the second entry on its
own validates to an accept — so the driver did not attempt every entry. -/
theorem batch_aborted_by_exception_counterexample :
    runBatch [] [entryBadDeclaredSet, entryAccepted] =
        ([], some (.jsonDecodeError "FAIL_TO_PASS"))
    ∧ runBatch [] [entryAccepted] = ([.accept], none) := by
  refine ⟨by decide, by decide⟩

/-- C4 as amended: as long as each entry's validation returns (accept or
rejection) rather than raising, the batch loop attempts every entry and no
per-entry outcome aborts it; and an invalid top-level path or an empty
resolved entry set is fatal before any entry is processed. -/
theorem batch_attempts_every_entry_when_validations_return
    (config : List String) (es : List EntryCase)
    (h : ∀ e ∈ es, ∃ o, validate_data_point config e = .ok o) :
    (runBatch config es).1.length = es.length
    ∧ (runBatch config es).2 = none
    ∧ mainRun config .invalidPath = .fatalInvalidPath
    ∧ mainRun config (.resolvedFiles []) = .fatalNoEntries := by
  refine ⟨?_, ?_, rfl, rfl⟩ <;>
  · induction es with
    | nil => simp [runBatch]
    | cons e rest ih =>
      obtain ⟨o, ho⟩ := h e (List.mem_cons_self e rest)
      rw [runBatch_cons_of_ok config e rest o ho]
      simp only [List.length_cons]
      have := ih (fun e' he' => h e' (List.mem_cons_of_mem e he'))
      simp [this]

/-- Witness for the amended C4 at a concrete input: a batch of a rejected
entry followed by an accepted one attempts both. -/
theorem batch_attempts_every_entry_witness :
    (runBatch [] [entryReportAbsent, entryAccepted]).1.length =
        [entryReportAbsent, entryAccepted].length
    ∧ (runBatch [] [entryReportAbsent, entryAccepted]).2 = none
    ∧ mainRun [] .invalidPath = .fatalInvalidPath
    ∧ mainRun [] (.resolvedFiles []) = .fatalNoEntries :=
  batch_attempts_every_entry_when_validations_return [] [entryReportAbsent, entryAccepted]
    (by
      intro e he
      simp only [List.mem_cons, List.not_mem_nil, or_false] at he
      rcases he with he | he <;> subst he
      · exact ⟨.reject .reportMissing, by decide⟩
      · exact ⟨.accept, by decide⟩)

end ValidateDataPoints
